import Mathlib

/-!
# Quiz-App: the quiz state machine of `src/App.jsx`

A shallow embedding of the `App` component (state, the four handlers, the
scoring effect and the conditional rendering that decides which handler a user
can reach) together with the static question list of `src/Data/Questions.js`.

Conventions of the embedding.

* A JavaScript value that is `null`/`undefined` or a string is an
  `Option String`; `none` stands for both `null` and `undefined` (the program
  never needs to tell them apart for one variable: `selectedAnswer` is a string
  or `null`, a property read of `userAnswers` is a string or `undefined`).
* The object `userAnswers` is only ever read by key, so it is a function from
  question id to `Option String`.
* A handler that would throw a `TypeError` (reading `.id` of an `undefined`
  question) returns `none`.
-/

namespace QuizApp

/-! ## Data: `src/Data/Questions.js` -/

/-- One record of the question list. -/
structure Question where
  id : Nat
  text : String
  options : List String
  correctAnswer : String
deriving DecidableEq

/-- The shipped question list (`export default quizQuestions`). -/
def quizQuestions : List Question :=
  [ { id := 1
      text := "1. What sound does a cat make?"
      options := ["Bhau-Bhau", "Meow-Meow", "Oink-Oink"]
      correctAnswer := "Meow-Meow" },
    { id := 2
      text := "2. What would you probably find in your fridge?"
      options := ["Shoes", "Books", "Ice-Cream"]
      correctAnswer := "Ice-Cream" },
    { id := 3
      text := "3. What colour are bananas?"
      options := ["Yellow", "Green", "Red"]
      correctAnswer := "Yellow" },
    { id := 4
      text := "4. How many stars are in the sky?"
      options := ["Two", "One Hundred", "Infinite"]
      correctAnswer := "Infinite" } ]

/-! ## State of `App` -/

/-- The three values of `quizState.status`. -/
inductive Status where
  | quiz
  | calculating
  | results
deriving DecidableEq

/-- The object held by `useState({ status: 'quiz', finalScore: null })`. -/
structure QuizState where
  status : Status
  finalScore : Option Int
deriving DecidableEq

/-- The object `userAnswers`, read by question id; `none` is `undefined`. -/
abbrev UserAnswers := Nat → Option String

/-- The empty object `{}`. -/
def UserAnswers.empty : UserAnswers := fun _ => none

/-- The object spread `{ ...prevAnswers, [id]: answerText }`. -/
def UserAnswers.set (prevAnswers : UserAnswers) (id : Nat) (answerText : String) :
    UserAnswers :=
  fun key => if key = id then some answerText else prevAnswers key

/-- The four `useState` cells of `App`. -/
structure AppState where
  currentQuestionIndex : Nat
  selectedAnswer : Option String
  userAnswers : UserAnswers
  quizState : QuizState

/-- The initial values passed to the four `useState` calls. -/
def initialState : AppState :=
  { currentQuestionIndex := 0
    selectedAnswer := none
    userAnswers := UserAnswers.empty
    quizState := { status := Status.quiz, finalScore := none } }

/-- JavaScript `a || b` on values that are a string, `null` or `undefined`:
the empty string is falsy, like `null` and `undefined`. -/
def jsOr (a b : Option String) : Option String :=
  match a with
  | some x => if x = "" then b else some x
  | none => b

/-- The expression `v || null`. -/
def orNull (v : Option String) : Option String :=
  jsOr v none

/-! ## Handlers -/

/-- The handler `handleAnswerSelect(answerText)`; `currentQuestion` is
`quizQuestions[currentQuestionIndex]`. -/
def handleAnswerSelect (qs : List Question) (s : AppState) (answerText : String) :
    Option AppState :=
  match qs[s.currentQuestionIndex]? with
  | none => none
  | some currentQuestion =>
    some { s with
      selectedAnswer := some answerText
      userAnswers := s.userAnswers.set currentQuestion.id answerText }

/-- The handler `handlePrevClick()`. -/
def handlePrevClick (qs : List Question) (s : AppState) : Option AppState :=
  if s.currentQuestionIndex > 0 then
    let prevIndex := s.currentQuestionIndex - 1
    match qs[prevIndex]? with
    | none => none
    | some prevQuestion =>
      some { s with
        currentQuestionIndex := prevIndex
        selectedAnswer := orNull (s.userAnswers prevQuestion.id) }
  else
    some s

/-- The handler `handleNextClick()`. -/
def handleNextClick (qs : List Question) (s : AppState) : Option AppState :=
  match qs[s.currentQuestionIndex]? with
  | none => none
  | some currentQuestion =>
    let isAnswered := (s.userAnswers currentQuestion.id).isSome
    if !isAnswered then some s
    else
      let nextIndex := s.currentQuestionIndex + 1
      if nextIndex < qs.length then
        match qs[nextIndex]? with
        | none => none
        | some nextQuestion =>
          some { s with
            currentQuestionIndex := nextIndex
            selectedAnswer := orNull (s.userAnswers nextQuestion.id) }
      else
        some { s with quizState := { s.quizState with status := Status.calculating } }

/-- The handler `handleRestartQuiz()`. -/
def handleRestartQuiz (_s : AppState) : AppState :=
  { currentQuestionIndex := 0
    selectedAnswer := none
    userAnswers := UserAnswers.empty
    quizState := { status := Status.quiz, finalScore := none } }

/-! ## The scoring effect -/

/-- The `forEach` loop of the scoring effect: `correctCount` starts at 0 and is
incremented for each question with `userAnswers[question.id] === question.correctAnswer`. -/
def correctCount (qs : List Question) (userAnswers : UserAnswers) : Nat :=
  qs.foldl
    (fun correctCount question =>
      if userAnswers question.id = some question.correctAnswer then correctCount + 1
      else correctCount)
    0

/-- The function `Math.round`: the integer nearest to `x`, a tie going up. -/
def mathRound (x : ℚ) : Int :=
  ⌊x + 1 / 2⌋

/-- The expression `Math.round((correctCount / totalQuestions) * 100)`, in exact
arithmetic. On the shipped list `totalQuestions` is 4, so the quotient is one of
0, 0.25, 0.5, 0.75, 1 and the product one of 0, 25, 50, 75, 100: every
intermediate value is a binary64 number and the exact value is the value the
program computes. (For an empty list the program yields `NaN`, which this
definition does not represent; the claims on scores below are stated on
`quizQuestions`.) -/
def calculatedScore (qs : List Question) (userAnswers : UserAnswers) : Int :=
  mathRound ((correctCount qs userAnswers : ℚ) / (qs.length : ℚ) * 100)

/-- The body of the scoring `useEffect`: when `isCalculating`, the score carried
by the timer it schedules; otherwise no timer is scheduled. -/
def scoringEffect (qs : List Question) (s : AppState) : Option Int :=
  if s.quizState.status = Status.calculating then
    some (calculatedScore qs s.userAnswers)
  else
    none

/-- The timer callback `setQuizState({ status: 'results', finalScore: calculatedScore })`. -/
def timerCallback (calculatedScore : Int) (s : AppState) : AppState :=
  { s with quizState := { status := Status.results, finalScore := some calculatedScore } }

/-! ## Conditional rendering: which handler a user can reach -/

/-- The three branches of the conditional rendering at the end of `App`. -/
inductive Screen where
  | resultsPage
  | scoringTransitionPage
  | quizUI
deriving DecidableEq

/-- The rendering branch taken: `quizState.status === 'results'` first, then
`isCalculating`, then the main quiz UI. -/
def screen (s : AppState) : Screen :=
  if s.quizState.status = Status.results then Screen.resultsPage
  else if s.quizState.status = Status.calculating then Screen.scoringTransitionPage
  else Screen.quizUI

/-- The value `selectedAnswer || userAnswers[currentQuestion.id] || null`. -/
def activeAnswerForStyling (currentQuestion : Question) (s : AppState) : Option String :=
  orNull (jsOr s.selectedAnswer (s.userAnswers currentQuestion.id))

/-- The value `activeAnswerForStyling !== null`. -/
def isAnswerSelected (currentQuestion : Question) (s : AppState) : Bool :=
  (activeAnswerForStyling currentQuestion s).isSome

/-- What can happen to a rendered `App`: a click on an answer button of
`QuestionCard`, on the Previous or Next/Submit button of `NavigationButtons`,
on the Start Over button of `ResultsPage`, or the timer of the scoring effect
firing. -/
inductive Event where
  | clickAnswer (answerText : String)
  | clickPrev
  | clickNext
  | clickRestart
  | timerFires

/-- The state after an event, `none` when the event cannot happen in `s`: its
button is not rendered on the current screen or is `disabled`, or no timer is
pending. -/
def Event.fire (qs : List Question) (s : AppState) : Event → Option AppState
  | Event.clickAnswer answerText =>
    match qs[s.currentQuestionIndex]? with
    | none => none
    | some currentQuestion =>
      if screen s = Screen.quizUI ∧ answerText ∈ currentQuestion.options then
        handleAnswerSelect qs s answerText
      else none
  | Event.clickPrev =>
    match qs[s.currentQuestionIndex]? with
    | none => none
    | some _ =>
      if screen s = Screen.quizUI ∧ ¬ s.currentQuestionIndex = 0 then handlePrevClick qs s
      else none
  | Event.clickNext =>
    match qs[s.currentQuestionIndex]? with
    | none => none
    | some currentQuestion =>
      if screen s = Screen.quizUI ∧ isAnswerSelected currentQuestion s = true then
        handleNextClick qs s
      else none
  | Event.clickRestart =>
    if screen s = Screen.resultsPage then some (handleRestartQuiz s) else none
  | Event.timerFires =>
    match scoringEffect qs s with
    | none => none
    | some calculatedScore => some (timerCallback calculatedScore s)

/-! ## The four operations as actions on the state -/

/-- The operations select, goPrevious, goNext and restart. -/
inductive Action where
  | select (answerText : String)
  | goPrevious
  | goNext
  | restart

/-- The handler behind each operation. -/
def Action.apply (qs : List Question) (s : AppState) : Action → Option AppState
  | Action.select answerText => handleAnswerSelect qs s answerText
  | Action.goPrevious => handlePrevClick qs s
  | Action.goNext => handleNextClick qs s
  | Action.restart => some (handleRestartQuiz s)

/-- A finite sequence of operations, applied left to right. -/
def runActions (qs : List Question) : AppState → List Action → Option AppState
  | s, [] => some s
  | s, a :: rest =>
    match a.apply qs s with
    | none => none
    | some s' => runActions qs s' rest

/-! ## Specification-side definitions for the score -/

/-- Number of questions whose recorded answer equals the question's correct
answer, as the specification words it; a question without a recorded answer
does not match. -/
def specCorrect (qs : List Question) (answers : UserAnswers) : Nat :=
  (qs.filter (fun q => decide (answers q.id = some q.correctAnswer))).length

/-- The specification's `round(correct / total * 100)`. -/
def specScore (qs : List Question) (answers : UserAnswers) : Int :=
  round ((specCorrect qs answers : ℚ) / (qs.length : ℚ) * 100)

/-- The answer map `{1:"Meow-Meow", 2:"Ice-Cream", 3:"Yellow", 4:"Two"}`. -/
def answers75 : UserAnswers :=
  (((UserAnswers.empty.set 1 "Meow-Meow").set 2 "Ice-Cream").set 3 "Yellow").set 4 "Two"

/-- A state that has just entered `calculating` with the answers `answers75`. -/
def calculating75 : AppState :=
  { currentQuestionIndex := 3
    selectedAnswer := some "Two"
    userAnswers := answers75
    quizState := { status := Status.calculating, finalScore := none } }

/-- An answer map that records the correct answer of every shipped question. -/
def answersAllCorrect : UserAnswers :=
  (((UserAnswers.empty.set 1 "Meow-Meow").set 2 "Ice-Cream").set 3 "Yellow").set 4 "Infinite"

/-- An answer map that records a wrong option for every shipped question. -/
def answersAllWrong : UserAnswers :=
  (((UserAnswers.empty.set 1 "Bhau-Bhau").set 2 "Shoes").set 3 "Green").set 4 "Two"

/-! ## Concrete states used as instances -/

/-- The shipped quiz after the first question has been answered. -/
def answeredFirst : AppState :=
  { currentQuestionIndex := 0
    selectedAnswer := some "Meow-Meow"
    userAnswers := UserAnswers.empty.set 1 "Meow-Meow"
    quizState := { status := Status.quiz, finalScore := none } }

/-- The shipped quiz on its second question, before it is answered. -/
def onSecond : AppState :=
  { currentQuestionIndex := 1
    selectedAnswer := none
    userAnswers := UserAnswers.empty.set 1 "Meow-Meow"
    quizState := { status := Status.quiz, finalScore := none } }

/-- The shipped quiz on its last question, all four questions answered. -/
def answeredLast : AppState :=
  { currentQuestionIndex := 3
    selectedAnswer := some "Two"
    userAnswers := answers75
    quizState := { status := Status.quiz, finalScore := none } }

/-- The shipped quiz showing the result 75. -/
def showing75 : AppState :=
  { currentQuestionIndex := 3
    selectedAnswer := some "Two"
    userAnswers := answers75
    quizState := { status := Status.results, finalScore := some 75 } }

/-- A question list in the shape of the external contract (distinct ids, two
options each, the correct answer among the options) whose second question
offers the empty string as an option. -/
def blankOptionQuestions : List Question :=
  [ { id := 1
      text := "1. Which letter comes first?"
      options := ["a", "b"]
      correctAnswer := "a" },
    { id := 2
      text := "2. Which string has no characters?"
      options := ["", "x"]
      correctAnswer := "" },
    { id := 3
      text := "3. Which letter comes last?"
      options := ["y", "z"]
      correctAnswer := "z" } ]

/-- The answer map `{1:"a", 2:""}`. -/
def blankAnswers : UserAnswers :=
  (UserAnswers.empty.set 1 "a").set 2 ""

/-- On `blankOptionQuestions`: back on question 1 after answering question 1
with "a" and question 2 with the empty string. -/
def blankBackOnFirst : AppState :=
  { currentQuestionIndex := 0
    selectedAnswer := some "a"
    userAnswers := blankAnswers
    quizState := { status := Status.quiz, finalScore := none } }

/-- On `blankOptionQuestions`: on question 2, just answered with the empty
string. -/
def blankOnSecond : AppState :=
  { currentQuestionIndex := 1
    selectedAnswer := some ""
    userAnswers := blankAnswers
    quizState := { status := Status.quiz, finalScore := none } }

/-- On `blankOptionQuestions`: on question 3, questions 1 and 2 answered with
"a" and the empty string. -/
def blankOnThird : AppState :=
  { currentQuestionIndex := 2
    selectedAnswer := none
    userAnswers := blankAnswers
    quizState := { status := Status.quiz, finalScore := none } }

/-! ## Runs of events and invariants of the state -/

/-- A finite sequence of events, fired one after the other; `none` as soon as
one of them cannot happen. -/
def runEvents (qs : List Question) : AppState → List Event → Option AppState
  | s, [] => some s
  | s, e :: rest =>
    match e.fire qs s with
    | none => none
    | some s' => runEvents qs s' rest

/-- Invariant: `quizState.finalScore` is non-null exactly when
`quizState.status` is `results`. -/
def ScoreOnlyInResults (s : AppState) : Prop :=
  s.quizState.finalScore ≠ none ↔ s.quizState.status = Status.results

/-- The events of a complete pass through the shipped quiz with the answers
`answers75`, up to and including the scoring timer. -/
def fullRun75 : List Event :=
  [ Event.clickAnswer "Meow-Meow", Event.clickNext,
    Event.clickAnswer "Ice-Cream", Event.clickNext,
    Event.clickAnswer "Yellow", Event.clickNext,
    Event.clickAnswer "Two", Event.clickNext,
    Event.timerFires ]

/-- The state at the end of `fullRun75`. -/
def afterFullRun75 : AppState :=
  { currentQuestionIndex := 3
    selectedAnswer := some "Two"
    userAnswers := answers75
    quizState :=
      { status := Status.results
        finalScore := some (calculatedScore quizQuestions answers75) } }

/-- Invariant: the position is on a question, every question below the position
has a recorded answer, and in status `calculating` every question has one. -/
def AnsweredPrefix (qs : List Question) (s : AppState) : Prop :=
  s.currentQuestionIndex < qs.length ∧
  (∀ (i : Nat) (q : Question), i < s.currentQuestionIndex → qs[i]? = some q →
    (s.userAnswers q.id).isSome = true) ∧
  (s.quizState.status = Status.calculating →
    ∀ q ∈ qs, (s.userAnswers q.id).isSome = true)

/-- Invariant: no recorded answer is the empty string, and `selectedAnswer` is
the answer recorded for the current question's id (`none` when there is none). -/
def SelectionMatchesRecord (qs : List Question) (s : AppState) : Prop :=
  (∀ (id : Nat) (v : String), s.userAnswers id = some v → v ≠ "") ∧
  ∃ currentQuestion, qs[s.currentQuestionIndex]? = some currentQuestion ∧
    s.selectedAnswer = s.userAnswers currentQuestion.id

/-- A pass through the shipped quiz by the four operations that goes back once
to change the answer of question 2 and ends with goNext on the last question. -/
def revisitRun : List Action :=
  [ Action.select "Meow-Meow", Action.goNext, Action.select "Ice-Cream", Action.goNext,
    Action.goPrevious, Action.select "Shoes", Action.goNext,
    Action.select "Yellow", Action.goNext, Action.select "Two", Action.goNext ]

/-- The state at the end of `revisitRun`. -/
def afterRevisitRun : AppState :=
  { currentQuestionIndex := 3
    selectedAnswer := some "Two"
    userAnswers :=
      ((((UserAnswers.empty.set 1 "Meow-Meow").set 2 "Ice-Cream").set 2 "Shoes").set 3
        "Yellow").set 4 "Two"
    quizState := { status := Status.calculating, finalScore := none } }

/-- Invariant: no recorded answer is the empty string. -/
def NoBlankAnswer (s : AppState) : Prop :=
  ∀ (id : Nat) (v : String), s.userAnswers id = some v → v ≠ ""

/-- The shipped quiz on its second question, questions 1 and 2 answered. -/
def answeredSecond : AppState :=
  { currentQuestionIndex := 1
    selectedAnswer := some "Shoes"
    userAnswers := (UserAnswers.empty.set 1 "Meow-Meow").set 2 "Shoes"
    quizState := { status := Status.quiz, finalScore := none } }

/-- The shipped quiz back on its first question, questions 1 and 2 answered. -/
def backOnFirst : AppState :=
  { currentQuestionIndex := 0
    selectedAnswer := some "Meow-Meow"
    userAnswers := (UserAnswers.empty.set 1 "Meow-Meow").set 2 "Shoes"
    quizState := { status := Status.quiz, finalScore := none } }

/-- The clicks that lead to `answeredFirst`. -/
def clicksToAnsweredFirst : List Event :=
  [ Event.clickAnswer "Meow-Meow" ]

/-- The clicks that lead to `answeredSecond`. -/
def clicksToAnsweredSecond : List Event :=
  [ Event.clickAnswer "Meow-Meow", Event.clickNext, Event.clickAnswer "Shoes" ]

/-- The clicks that lead to `backOnFirst`. -/
def clicksToBackOnFirst : List Event :=
  [ Event.clickAnswer "Meow-Meow", Event.clickNext, Event.clickAnswer "Shoes",
    Event.clickPrev ]

/-- The clicks that lead to `answeredLast`. -/
def clicksToAnsweredLast : List Event :=
  [ Event.clickAnswer "Meow-Meow", Event.clickNext,
    Event.clickAnswer "Ice-Cream", Event.clickNext,
    Event.clickAnswer "Yellow", Event.clickNext,
    Event.clickAnswer "Two" ]

/-! ## Theorems -/

theorem correctCount_foldl (userAnswers : UserAnswers) (qs : List Question) (n : Nat) :
    qs.foldl
      (fun correctCount question =>
        if userAnswers question.id = some question.correctAnswer then correctCount + 1
        else correctCount)
      n
    = n + (qs.filter (fun q => decide (userAnswers q.id = some q.correctAnswer))).length := by
  induction qs generalizing n with
  | nil => simp
  | cons q qs ih =>
    simp only [List.foldl_cons, List.filter_cons]
    rw [ih]
    by_cases h : userAnswers q.id = some q.correctAnswer
    · simp [h]; omega
    · simp [h]

theorem correctCount_eq_specCorrect (qs : List Question) (userAnswers : UserAnswers) :
    correctCount qs userAnswers = specCorrect qs userAnswers := by
  unfold correctCount specCorrect
  rw [correctCount_foldl]
  simp

theorem calculatedScore_eq_specScore (qs : List Question) (userAnswers : UserAnswers) :
    calculatedScore qs userAnswers = specScore qs userAnswers := by
  unfold calculatedScore specScore mathRound
  rw [correctCount_eq_specCorrect, round_eq]

theorem correctCount_answers75 : correctCount quizQuestions answers75 = 3 := by
  decide

theorem calculatedScore_answers75 : calculatedScore quizQuestions answers75 = 75 := by
  unfold calculatedScore
  rw [correctCount_answers75]
  unfold mathRound
  rw [Int.floor_eq_iff]
  simp [quizQuestions]
  norm_num

/-- C1: on the shipped question list, the score computed on entering
`calculating` is `round(correct / total * 100)`, where `correct` counts the
questions whose recorded answer equals the correct answer (a missing answer does
not match) and `total` is the number of questions; with the answers
`{1:"Meow-Meow", 2:"Ice-Cream", 3:"Yellow", 4:"Two"}` the score is 75. -/
theorem scoringEffect_eq_specScore :
    (∀ s : AppState, s.quizState.status = Status.calculating →
      scoringEffect quizQuestions s = some (specScore quizQuestions s.userAnswers)) ∧
    scoringEffect quizQuestions calculating75 = some 75 := by
  refine ⟨?_, ?_⟩
  · intro s hs
    simp only [scoringEffect, hs, if_true, calculatedScore_eq_specScore]
  · have h : calculating75.quizState.status = Status.calculating := rfl
    simp only [scoringEffect, h, if_true]
    exact congrArg some calculatedScore_answers75

theorem scoringEffect_eq_specScore_witness :
    calculating75.quizState.status = Status.calculating ∧
    scoringEffect quizQuestions calculating75
      = some (specScore quizQuestions calculating75.userAnswers) :=
  ⟨rfl, scoringEffect_eq_specScore.1 calculating75 rfl⟩

theorem mathRound_intCast (n : Int) : mathRound (n : ℚ) = n := by
  unfold mathRound
  rw [Int.floor_eq_iff]
  constructor
  · linarith
  · linarith

theorem correctCount_le_length (qs : List Question) (userAnswers : UserAnswers) :
    correctCount qs userAnswers ≤ qs.length := by
  rw [correctCount_eq_specCorrect]
  exact List.length_filter_le _ _

theorem correctCount_of_all (qs : List Question) (userAnswers : UserAnswers)
    (h : ∀ q ∈ qs, userAnswers q.id = some q.correctAnswer) :
    correctCount qs userAnswers = qs.length := by
  rw [correctCount_eq_specCorrect]
  unfold specCorrect
  rw [List.filter_eq_self.2]
  intro q hq
  simpa using h q hq

theorem correctCount_of_none (qs : List Question) (userAnswers : UserAnswers)
    (h : ∀ q ∈ qs, userAnswers q.id ≠ some q.correctAnswer) :
    correctCount qs userAnswers = 0 := by
  rw [correctCount_eq_specCorrect]
  unfold specCorrect
  rw [List.length_eq_zero, List.filter_eq_nil_iff]
  intro q hq
  simpa using h q hq

/-- C2: on the shipped question list, an answer map that records the correct
answer of every question scores 100, and an answer map in which no question's
recorded answer equals its correct answer scores 0. -/
theorem calculatedScore_all_correct_all_wrong (userAnswers : UserAnswers) :
    ((∀ q ∈ quizQuestions, userAnswers q.id = some q.correctAnswer) →
      calculatedScore quizQuestions userAnswers = 100) ∧
    ((∀ q ∈ quizQuestions, userAnswers q.id ≠ some q.correctAnswer) →
      calculatedScore quizQuestions userAnswers = 0) := by
  constructor
  · intro h
    unfold calculatedScore
    rw [correctCount_of_all _ _ h]
    have e : ((quizQuestions.length : ℕ) : ℚ) / (quizQuestions.length : ℚ) * 100
        = ((100 : Int) : ℚ) := by
      simp [quizQuestions]
    rw [e, mathRound_intCast]
  · intro h
    unfold calculatedScore
    rw [correctCount_of_none _ _ h]
    have e : ((0 : ℕ) : ℚ) / (quizQuestions.length : ℚ) * 100 = ((0 : Int) : ℚ) := by
      simp
    rw [e, mathRound_intCast]

theorem calculatedScore_all_correct_all_wrong_witness :
    ((∀ q ∈ quizQuestions, answersAllCorrect q.id = some q.correctAnswer) ∧
      calculatedScore quizQuestions answersAllCorrect = 100) ∧
    ((∀ q ∈ quizQuestions, answersAllWrong q.id ≠ some q.correctAnswer) ∧
      calculatedScore quizQuestions answersAllWrong = 0) :=
  ⟨⟨by decide, (calculatedScore_all_correct_all_wrong answersAllCorrect).1 (by decide)⟩,
   ⟨by decide, (calculatedScore_all_correct_all_wrong answersAllWrong).2 (by decide)⟩⟩

theorem calculatedScore_bounds (qs : List Question) (userAnswers : UserAnswers) :
    0 ≤ calculatedScore qs userAnswers ∧ calculatedScore qs userAnswers ≤ 100 := by
  have hle : ((correctCount qs userAnswers : ℕ) : ℚ) ≤ (qs.length : ℚ) := by
    exact_mod_cast correctCount_le_length qs userAnswers
  have h0 : (0 : ℚ) ≤ (correctCount qs userAnswers : ℚ) := by positivity
  have hn : (0 : ℚ) ≤ (qs.length : ℚ) := by positivity
  have hq0 : (0 : ℚ) ≤ (correctCount qs userAnswers : ℚ) / (qs.length : ℚ) :=
    div_nonneg h0 hn
  have hq1 : (correctCount qs userAnswers : ℚ) / (qs.length : ℚ) ≤ 1 :=
    div_le_one_of_le₀ hle hn
  unfold calculatedScore mathRound
  constructor
  · apply Int.floor_nonneg.2
    nlinarith
  · have : ⌊(correctCount qs userAnswers : ℚ) / (qs.length : ℚ) * 100 + 1 / 2⌋ < 101 := by
      rw [Int.floor_lt]
      push_cast
      nlinarith
    omega

/-- C3: in a state whose status is `calculating`, the timer of the scoring
effect is the only event that can happen; it leads to status `results` carrying
the computed score and changes nothing else, and that score is an integer
between 0 and 100. -/
theorem calculating_only_timer_to_results (s : AppState)
    (h : s.quizState.status = Status.calculating) :
    Event.fire quizQuestions s Event.timerFires
      = some { s with quizState :=
          { status := Status.results
            finalScore := some (calculatedScore quizQuestions s.userAnswers) } } ∧
    (∀ (e : Event) (s' : AppState), Event.fire quizQuestions s e = some s' →
      e = Event.timerFires ∧
      s'.quizState.status = Status.results ∧
      s'.quizState.finalScore = some (calculatedScore quizQuestions s.userAnswers)) ∧
    0 ≤ calculatedScore quizQuestions s.userAnswers ∧
    calculatedScore quizQuestions s.userAnswers ≤ 100 := by
  have hscreen : screen s = Screen.scoringTransitionPage := by
    simp [screen, h]
  have htimer : Event.fire quizQuestions s Event.timerFires
      = some { s with quizState :=
          { status := Status.results
            finalScore := some (calculatedScore quizQuestions s.userAnswers) } } := by
    simp [Event.fire, scoringEffect, h, timerCallback]
  refine ⟨htimer, ?_, calculatedScore_bounds _ _⟩
  intro e s' hfire
  cases e with
  | clickAnswer answerText =>
    simp only [Event.fire, hscreen] at hfire
    split at hfire <;> simp at hfire
  | clickPrev =>
    simp only [Event.fire, hscreen] at hfire
    split at hfire <;> simp at hfire
  | clickNext =>
    simp only [Event.fire, hscreen] at hfire
    split at hfire <;> simp at hfire
  | clickRestart =>
    simp [Event.fire, hscreen] at hfire
  | timerFires =>
    rw [htimer] at hfire
    cases hfire
    exact ⟨rfl, rfl, rfl⟩

theorem calculating_only_timer_to_results_witness :
    calculating75.quizState.status = Status.calculating ∧
    Event.fire quizQuestions calculating75 Event.timerFires
      = some { calculating75 with quizState :=
          { status := Status.results
            finalScore := some (calculatedScore quizQuestions calculating75.userAnswers) } } ∧
    (∀ (e : Event) (s' : AppState), Event.fire quizQuestions calculating75 e = some s' →
      e = Event.timerFires ∧
      s'.quizState.status = Status.results ∧
      s'.quizState.finalScore
        = some (calculatedScore quizQuestions calculating75.userAnswers)) ∧
    0 ≤ calculatedScore quizQuestions calculating75.userAnswers ∧
    calculatedScore quizQuestions calculating75.userAnswers ≤ 100 :=
  ⟨rfl, calculating_only_timer_to_results calculating75 rfl⟩

/-! ### Navigation and answer recording -/

theorem orNull_eq (v : Option String) :
    orNull v = if v = some "" then none else v := by
  cases v with
  | none => simp [orNull, jsOr]
  | some x =>
    by_cases hx : x = ""
    · simp [orNull, jsOr, hx]
    · simp [orNull, jsOr, hx]

theorem getElem?_of_lt (qs : List Question) (i : Nat) (h : i < qs.length) :
    ∃ q, qs[i]? = some q :=
  ⟨qs[i], List.getElem?_eq_getElem h⟩

theorem lt_length_of_getElem? (qs : List Question) (i : Nat) (q : Question)
    (h : qs[i]? = some q) : i < qs.length := by
  by_contra hlt
  rw [List.getElem?_eq_none (Nat.le_of_not_lt hlt)] at h
  cases h

theorem blankBackOnFirst_reachable :
    runActions blankOptionQuestions initialState
      [Action.select "a", Action.goNext, Action.select "", Action.goPrevious]
      = some blankBackOnFirst := by
  rfl

theorem blankOnSecond_reachable :
    runActions blankOptionQuestions initialState
      [Action.select "a", Action.goNext, Action.select ""]
      = some blankOnSecond := by
  rfl

theorem blankOnThird_reachable :
    runActions blankOptionQuestions initialState
      [Action.select "a", Action.goNext, Action.select "", Action.goNext]
      = some blankOnThird := by
  rfl

theorem handleAnswerSelect_eq (qs : List Question) (s : AppState) (currentQuestion : Question)
    (answerText : String) (hq : qs[s.currentQuestionIndex]? = some currentQuestion) :
    handleAnswerSelect qs s answerText
      = some { s with
          selectedAnswer := some answerText
          userAnswers := s.userAnswers.set currentQuestion.id answerText } := by
  simp [handleAnswerSelect, hq]

theorem handleNextClick_unanswered (qs : List Question) (s : AppState)
    (currentQuestion : Question) (hq : qs[s.currentQuestionIndex]? = some currentQuestion)
    (hun : s.userAnswers currentQuestion.id = none) :
    handleNextClick qs s = some s := by
  simp [handleNextClick, hq, hun]

theorem handleNextClick_advance (qs : List Question) (s : AppState)
    (currentQuestion nextQuestion : Question) (answer : String)
    (hq : qs[s.currentQuestionIndex]? = some currentQuestion)
    (ha : s.userAnswers currentQuestion.id = some answer)
    (hn : qs[s.currentQuestionIndex + 1]? = some nextQuestion) :
    handleNextClick qs s
      = some { s with
          currentQuestionIndex := s.currentQuestionIndex + 1
          selectedAnswer := orNull (s.userAnswers nextQuestion.id) } := by
  have hlt := lt_length_of_getElem? qs _ _ hn
  simp [handleNextClick, hq, ha, hn, hlt]

theorem handleNextClick_last (qs : List Question) (s : AppState)
    (currentQuestion : Question) (answer : String)
    (hq : qs[s.currentQuestionIndex]? = some currentQuestion)
    (ha : s.userAnswers currentQuestion.id = some answer)
    (hlast : ¬ s.currentQuestionIndex + 1 < qs.length) :
    handleNextClick qs s
      = some { s with
          quizState := { status := Status.calculating, finalScore := s.quizState.finalScore } } := by
  simp [handleNextClick, hq, ha, hlast]

theorem handlePrevClick_zero (qs : List Question) (s : AppState)
    (h0 : s.currentQuestionIndex = 0) :
    handlePrevClick qs s = some s := by
  simp [handlePrevClick, h0]

theorem handlePrevClick_pos (qs : List Question) (s : AppState) (prevQuestion : Question)
    (hpos : 0 < s.currentQuestionIndex)
    (hp : qs[s.currentQuestionIndex - 1]? = some prevQuestion) :
    handlePrevClick qs s
      = some { s with
          currentQuestionIndex := s.currentQuestionIndex - 1
          selectedAnswer := orNull (s.userAnswers prevQuestion.id) } := by
  simp [handlePrevClick, hpos, hp]

theorem Action.apply_inRange (qs : List Question) (s : AppState)
    (h : s.currentQuestionIndex < qs.length) (a : Action) :
    ∃ s', a.apply qs s = some s' ∧ s'.currentQuestionIndex < qs.length ∧
      (a = Action.restart → s'.currentQuestionIndex = 0) ∧
      (a ≠ Action.restart →
        s'.currentQuestionIndex ≤ s.currentQuestionIndex + 1 ∧
        s.currentQuestionIndex ≤ s'.currentQuestionIndex + 1) := by
  obtain ⟨cq, hq⟩ := getElem?_of_lt qs _ h
  cases a with
  | select answerText =>
    refine ⟨_, handleAnswerSelect_eq qs s cq answerText hq, h, ?_, ?_⟩
    · intro hr; cases hr
    · intro _; exact ⟨Nat.le_succ _, Nat.le_succ _⟩
  | goPrevious =>
    by_cases h0 : s.currentQuestionIndex = 0
    · refine ⟨s, handlePrevClick_zero qs s h0, h, ?_, ?_⟩
      · intro hr; cases hr
      · intro _; exact ⟨Nat.le_succ _, Nat.le_succ _⟩
    · have hpos : 0 < s.currentQuestionIndex := Nat.pos_of_ne_zero h0
      obtain ⟨pq, hp⟩ := getElem?_of_lt qs (s.currentQuestionIndex - 1) (by omega)
      refine ⟨_, handlePrevClick_pos qs s pq hpos hp, ?_, ?_, ?_⟩
      · show s.currentQuestionIndex - 1 < qs.length
        omega
      · intro hr; cases hr
      · intro _
        show s.currentQuestionIndex - 1 ≤ s.currentQuestionIndex + 1 ∧
          s.currentQuestionIndex ≤ s.currentQuestionIndex - 1 + 1
        omega
  | goNext =>
    cases hans : s.userAnswers cq.id with
    | none =>
      refine ⟨s, handleNextClick_unanswered qs s cq hq hans, h, ?_, ?_⟩
      · intro hr; cases hr
      · intro _; exact ⟨Nat.le_succ _, Nat.le_succ _⟩
    | some answer =>
      by_cases hlt : s.currentQuestionIndex + 1 < qs.length
      · obtain ⟨nq, hn⟩ := getElem?_of_lt qs _ hlt
        refine ⟨_, handleNextClick_advance qs s cq nq answer hq hans hn, hlt, ?_, ?_⟩
        · intro hr; cases hr
        · intro _
          show s.currentQuestionIndex + 1 ≤ s.currentQuestionIndex + 1 ∧
            s.currentQuestionIndex ≤ s.currentQuestionIndex + 1 + 1
          omega
      · refine ⟨_, handleNextClick_last qs s cq answer hq hans hlt, h, ?_, ?_⟩
        · intro hr; cases hr
        · intro _; exact ⟨Nat.le_succ _, Nat.le_succ _⟩
  | restart =>
    refine ⟨handleRestartQuiz s, rfl, ?_, ?_, ?_⟩
    · show 0 < qs.length
      omega
    · intro _; rfl
    · intro hr; exact absurd rfl hr

theorem runActions_inRange (qs : List Question) (actions : List Action) (s : AppState)
    (h : s.currentQuestionIndex < qs.length) :
    ∃ s', runActions qs s actions = some s' ∧ s'.currentQuestionIndex < qs.length := by
  induction actions generalizing s with
  | nil => exact ⟨s, rfl, h⟩
  | cons a rest ih =>
    obtain ⟨s1, h1, hr1, _⟩ := Action.apply_inRange qs s h a
    obtain ⟨s2, h2, hr2⟩ := ih s1 hr1
    refine ⟨s2, ?_, hr2⟩
    simp [runActions, h1, h2]

/-- C4: for a non-empty question list, every finite sequence of select,
goPrevious, goNext and restart actions applied from the initial state runs to a
state whose position is at most `length - 1` (and at least 0, being a natural
number); and from that state every single action yields a state whose position
differs by at most 1, except restart, which sets it to 0. -/
theorem position_in_range (qs : List Question) (hne : qs ≠ []) (actions : List Action) :
    ∃ s, runActions qs initialState actions = some s ∧
      0 ≤ s.currentQuestionIndex ∧ s.currentQuestionIndex ≤ qs.length - 1 ∧
      ∀ a : Action, ∃ s', a.apply qs s = some s' ∧
        (a = Action.restart → s'.currentQuestionIndex = 0) ∧
        (a ≠ Action.restart →
          s'.currentQuestionIndex ≤ s.currentQuestionIndex + 1 ∧
          s.currentQuestionIndex ≤ s'.currentQuestionIndex + 1) := by
  have hlen : 0 < qs.length := List.length_pos.2 hne
  obtain ⟨s, hrun, hs⟩ := runActions_inRange qs actions initialState hlen
  refine ⟨s, hrun, Nat.zero_le _, by omega, ?_⟩
  intro a
  obtain ⟨s', h1, _, h3, h4⟩ := Action.apply_inRange qs s hs a
  exact ⟨s', h1, h3, h4⟩

theorem position_in_range_witness :
    quizQuestions ≠ [] ∧
    ∃ s, runActions quizQuestions initialState
        [Action.select "Meow-Meow", Action.goNext, Action.select "Shoes", Action.goPrevious,
         Action.goNext, Action.goNext, Action.restart, Action.goPrevious] = some s ∧
      0 ≤ s.currentQuestionIndex ∧ s.currentQuestionIndex ≤ quizQuestions.length - 1 ∧
      ∀ a : Action, ∃ s', a.apply quizQuestions s = some s' ∧
        (a = Action.restart → s'.currentQuestionIndex = 0) ∧
        (a ≠ Action.restart →
          s'.currentQuestionIndex ≤ s.currentQuestionIndex + 1 ∧
          s.currentQuestionIndex ≤ s'.currentQuestionIndex + 1) :=
  ⟨by decide, position_in_range quizQuestions (by decide) _⟩

/-- C5: in every state whose position is on a question, select(o) records o as
the answer for the current question's id (replacing any earlier one) and as the
displayed selection, and leaves the answers of every other id, the position and
the flow state unchanged. -/
theorem select_records_answer (qs : List Question) (s : AppState) (currentQuestion : Question)
    (o : String) (hq : qs[s.currentQuestionIndex]? = some currentQuestion) :
    ∃ s', handleAnswerSelect qs s o = some s' ∧
      s'.userAnswers currentQuestion.id = some o ∧
      s'.selectedAnswer = some o ∧
      (∀ id : Nat, id ≠ currentQuestion.id → s'.userAnswers id = s.userAnswers id) ∧
      s'.currentQuestionIndex = s.currentQuestionIndex ∧
      s'.quizState = s.quizState := by
  refine ⟨_, handleAnswerSelect_eq qs s currentQuestion o hq, ?_, rfl, ?_, rfl, rfl⟩
  · simp [UserAnswers.set]
  · intro id hid
    simp [UserAnswers.set, hid]

theorem select_records_answer_witness :
    quizQuestions[answeredFirst.currentQuestionIndex]? = some
      { id := 1
        text := "1. What sound does a cat make?"
        options := ["Bhau-Bhau", "Meow-Meow", "Oink-Oink"]
        correctAnswer := "Meow-Meow" } ∧
    ∃ s', handleAnswerSelect quizQuestions answeredFirst "Oink-Oink" = some s' ∧
      s'.userAnswers 1 = some "Oink-Oink" ∧
      s'.selectedAnswer = some "Oink-Oink" ∧
      (∀ id : Nat, id ≠ 1 → s'.userAnswers id = answeredFirst.userAnswers id) ∧
      s'.currentQuestionIndex = answeredFirst.currentQuestionIndex ∧
      s'.quizState = answeredFirst.quizState :=
  ⟨rfl, select_records_answer quizQuestions answeredFirst _ "Oink-Oink" rfl⟩

/-- C6: in every state whose current question has no recorded answer, goNext
leaves the entire state unchanged. -/
theorem goNext_unanswered_noop (qs : List Question) (s : AppState) (currentQuestion : Question)
    (hq : qs[s.currentQuestionIndex]? = some currentQuestion)
    (hun : s.userAnswers currentQuestion.id = none) :
    handleNextClick qs s = some s :=
  handleNextClick_unanswered qs s currentQuestion hq hun

theorem goNext_unanswered_noop_witness :
    onSecond.userAnswers 2 = none ∧ handleNextClick quizQuestions onSecond = some onSecond :=
  ⟨rfl, goNext_unanswered_noop quizQuestions onSecond
    { id := 2
      text := "2. What would you probably find in your fridge?"
      options := ["Shoes", "Books", "Ice-Cream"]
      correctAnswer := "Ice-Cream" } rfl rfl⟩

/-! ### A question list with an empty option

The shipped list has no empty option (`quizQuestions_no_blank_option` below), so
the running `App` never records the empty string. The three facts here describe
the handlers on `blankOptionQuestions`, a list that does offer it: there
`userAnswers[id] || null` does not give back a recorded empty string. -/

theorem handleNextClick_blank_option :
    blankBackOnFirst.userAnswers 1 = some "a" ∧
    blankBackOnFirst.userAnswers 2 = some "" ∧
    Option.map AppState.currentQuestionIndex
      (handleNextClick blankOptionQuestions blankBackOnFirst) = some 1 ∧
    Option.map AppState.selectedAnswer
      (handleNextClick blankOptionQuestions blankBackOnFirst) = some none := by
  refine ⟨rfl, rfl, rfl, rfl⟩

theorem handlePrevClick_blank_option :
    blankOnThird.userAnswers 2 = some "" ∧
    Option.map AppState.currentQuestionIndex
      (handlePrevClick blankOptionQuestions blankOnThird) = some 1 ∧
    Option.map AppState.selectedAnswer
      (handlePrevClick blankOptionQuestions blankOnThird) = some none := by
  refine ⟨rfl, rfl, rfl⟩

theorem handleNextClick_handlePrevClick_blank_option :
    blankOnSecond.userAnswers 2 = some "" ∧
    Option.map AppState.currentQuestionIndex
      ((handleNextClick blankOptionQuestions blankOnSecond).bind
        (handlePrevClick blankOptionQuestions)) = some 1 ∧
    Option.map AppState.selectedAnswer
      ((handleNextClick blankOptionQuestions blankOnSecond).bind
        (handlePrevClick blankOptionQuestions)) = some none := by
  refine ⟨rfl, rfl, rfl⟩

/-- C10: in every state whose status is `results`, restart yields exactly the
initial state: status `quiz`, position 0, empty Answer Map, no displayed
selection and no final score. -/
theorem restart_from_results (s : AppState) (h : s.quizState.status = Status.results) :
    Event.fire quizQuestions s Event.clickRestart = some (handleRestartQuiz s) ∧
    handleRestartQuiz s = initialState ∧
    (handleRestartQuiz s).quizState.status = Status.quiz ∧
    (handleRestartQuiz s).currentQuestionIndex = 0 ∧
    (∀ id : Nat, (handleRestartQuiz s).userAnswers id = none) ∧
    (handleRestartQuiz s).selectedAnswer = none ∧
    (handleRestartQuiz s).quizState.finalScore = none := by
  refine ⟨?_, rfl, rfl, rfl, fun _ => rfl, rfl, rfl⟩
  simp [Event.fire, screen, h]

theorem restart_from_results_witness :
    showing75.quizState.status = Status.results ∧
    Event.fire quizQuestions showing75 Event.clickRestart = some (handleRestartQuiz showing75) ∧
    handleRestartQuiz showing75 = initialState ∧
    (handleRestartQuiz showing75).quizState.status = Status.quiz ∧
    (handleRestartQuiz showing75).currentQuestionIndex = 0 ∧
    (∀ id : Nat, (handleRestartQuiz showing75).userAnswers id = none) ∧
    (handleRestartQuiz showing75).selectedAnswer = none ∧
    (handleRestartQuiz showing75).quizState.finalScore = none :=
  ⟨rfl, restart_from_results showing75 rfl⟩

/-! ### Restart outside `results`, and the final score -/

/-- C11, the claim as stated fails: `handleRestartQuiz` has no guard. In the
state `onSecond` (status `quiz`, position 1, question 1 answered) it moves the
position to 0 and empties the Answer Map; in the state `calculating75` (status
`calculating`) it also puts the status back to `quiz`. -/
theorem restart_outside_results_counterexample :
    onSecond.quizState.status = Status.quiz ∧
    onSecond.currentQuestionIndex = 1 ∧
    (handleRestartQuiz onSecond).currentQuestionIndex = 0 ∧
    onSecond.userAnswers 1 = some "Meow-Meow" ∧
    (handleRestartQuiz onSecond).userAnswers 1 = none ∧
    calculating75.quizState.status = Status.calculating ∧
    (handleRestartQuiz calculating75).quizState.status = Status.quiz ∧
    calculating75.selectedAnswer = some "Two" ∧
    (handleRestartQuiz calculating75).selectedAnswer = none := by
  refine ⟨rfl, rfl, rfl, rfl, rfl, rfl, rfl, rfl, rfl⟩

/-- C11 (amended): in every state whose status is not `results` no restart can
be triggered, because the Start Over button is rendered only on the results
screen, so no restart event changes the state; `handleRestartQuiz` itself has no
guard and, when invoked, yields the initial state whatever the status. -/
theorem restart_outside_results (qs : List Question) (s : AppState)
    (h : s.quizState.status ≠ Status.results) :
    Event.fire qs s Event.clickRestart = none ∧
    handleRestartQuiz s = initialState := by
  refine ⟨?_, rfl⟩
  simp [Event.fire, screen, h]
  split <;> simp

theorem restart_outside_results_witness :
    onSecond.quizState.status ≠ Status.results ∧
    Event.fire quizQuestions onSecond Event.clickRestart = none ∧
    handleRestartQuiz onSecond = initialState :=
  ⟨by decide, restart_outside_results quizQuestions onSecond (by decide)⟩

theorem handleAnswerSelect_quizState (qs : List Question) (s s' : AppState)
    (answerText : String) (h : handleAnswerSelect qs s answerText = some s') :
    s'.quizState = s.quizState := by
  unfold handleAnswerSelect at h
  split at h
  · cases h
  · cases h
    rfl

theorem handlePrevClick_quizState (qs : List Question) (s s' : AppState)
    (h : handlePrevClick qs s = some s') :
    s'.quizState = s.quizState := by
  unfold handlePrevClick at h
  split at h
  · simp only at h
    split at h
    · cases h
    · cases h
      rfl
  · cases h
    rfl

theorem handleNextClick_quizState (qs : List Question) (s s' : AppState)
    (h : handleNextClick qs s = some s') :
    s'.quizState = s.quizState ∨
    s'.quizState
      = { status := Status.calculating, finalScore := s.quizState.finalScore } := by
  unfold handleNextClick at h
  split at h
  · cases h
  · simp only at h
    split at h
    · cases h
      exact Or.inl rfl
    · split at h
      · split at h
        · cases h
        · cases h
          exact Or.inl rfl
      · cases h
        exact Or.inr rfl

theorem screen_quizUI_status (s : AppState) (h : screen s = Screen.quizUI) :
    s.quizState.status = Status.quiz := by
  unfold screen at h
  cases hs : s.quizState.status <;> simp [hs] at h ⊢

theorem Event.fire_scoreOnlyInResults (qs : List Question) (s s' : AppState) (e : Event)
    (hinv : ScoreOnlyInResults s) (hfire : e.fire qs s = some s') :
    ScoreOnlyInResults s' := by
  unfold ScoreOnlyInResults at hinv ⊢
  cases e with
  | clickAnswer answerText =>
    simp only [Event.fire] at hfire
    split at hfire
    · cases hfire
    · split at hfire
      · rw [handleAnswerSelect_quizState qs s s' answerText hfire]
        exact hinv
      · cases hfire
  | clickPrev =>
    simp only [Event.fire] at hfire
    split at hfire
    · cases hfire
    · split at hfire
      · rw [handlePrevClick_quizState qs s s' hfire]
        exact hinv
      · cases hfire
  | clickNext =>
    simp only [Event.fire] at hfire
    split at hfire
    · cases hfire
    · split at hfire
      · rename_i hgate
        have hquiz := screen_quizUI_status s hgate.1
        rcases handleNextClick_quizState qs s s' hfire with hq | hq
        · rw [hq]
          exact hinv
        · have hnone : s.quizState.finalScore = none := by
            by_contra hne
            have := hinv.1 hne
            rw [hquiz] at this
            cases this
          rw [hq]
          simp [hnone]
      · cases hfire
  | clickRestart =>
    simp only [Event.fire] at hfire
    split at hfire
    · cases hfire
      simp [handleRestartQuiz]
    · cases hfire
  | timerFires =>
    simp only [Event.fire] at hfire
    split at hfire
    · cases hfire
    · cases hfire
      simp [timerCallback]

theorem runEvents_scoreOnlyInResults (qs : List Question) (events : List Event)
    (s s' : AppState) (hinv : ScoreOnlyInResults s) (hrun : runEvents qs s events = some s') :
    ScoreOnlyInResults s' := by
  induction events generalizing s with
  | nil =>
    simp only [runEvents] at hrun
    cases hrun
    exact hinv
  | cons e rest ih =>
    simp only [runEvents] at hrun
    split at hrun
    · cases hrun
    · rename_i s1 h1
      exact ih s1 (Event.fire_scoreOnlyInResults qs s s1 e hinv h1) hrun

theorem fullRun75_reaches :
    runEvents quizQuestions initialState fullRun75 = some afterFullRun75 := by
  rfl

/-- C12: in every state the running `App` can reach from the initial state (by
clicks on the rendered answer, Previous, Next/Submit and Start Over buttons,
which call `handleAnswerSelect`, `handlePrevClick`, `handleNextClick` and
`handleRestartQuiz`, and by the scoring timer callback), `finalScore` is
non-null if and only if the status is `results`. -/
theorem finalScore_iff_results (qs : List Question) (events : List Event) (s : AppState)
    (hrun : runEvents qs initialState events = some s) :
    s.quizState.finalScore ≠ none ↔ s.quizState.status = Status.results := by
  have hinit : ScoreOnlyInResults initialState := by
    simp [ScoreOnlyInResults, initialState]
  exact runEvents_scoreOnlyInResults qs events initialState s hinit hrun

theorem finalScore_iff_results_witness :
    runEvents quizQuestions initialState fullRun75 = some afterFullRun75 ∧
    (afterFullRun75.quizState.finalScore ≠ none ↔
      afterFullRun75.quizState.status = Status.results) :=
  ⟨fullRun75_reaches,
    finalScore_iff_results quizQuestions fullRun75 afterFullRun75 fullRun75_reaches⟩

/-- C13: the shipped question list satisfies the external contract: it is
non-empty, its ids are pairwise distinct, every question has at least 2 options,
and every question's correct answer is one of its options. -/
theorem quizQuestions_contract :
    quizQuestions ≠ [] ∧
    List.Pairwise (fun q1 q2 : Question => q1.id ≠ q2.id) quizQuestions ∧
    (∀ q ∈ quizQuestions, 2 ≤ q.options.length) ∧
    (∀ q ∈ quizQuestions, q.correctAnswer ∈ q.options) := by
  refine ⟨by decide, by decide, by decide, by decide⟩

/-- Outside the rendered UI the invariant `ScoreOnlyInResults` is not enforced by
the handlers themselves: `handleNextClick` applied to the results state `afterFullRun75`
keeps the old score under status `calculating`; the running `App` cannot do
this, because the Next/Submit button is not rendered on the results screen. -/
theorem handleNextClick_in_results :
    Event.fire quizQuestions afterFullRun75 Event.clickNext = none ∧
    Option.map AppState.quizState (handleNextClick quizQuestions afterFullRun75)
      = some { status := Status.calculating
               finalScore := some (calculatedScore quizQuestions answers75) } := by
  exact ⟨rfl, rfl⟩

/-! ### Answers below the position -/

theorem UserAnswers.set_isSome (userAnswers : UserAnswers) (id key : Nat) (answerText : String)
    (h : (userAnswers key).isSome = true) :
    ((userAnswers.set id answerText) key).isSome = true := by
  unfold UserAnswers.set
  by_cases hk : key = id
  · simp [hk]
  · simp [hk, h]

theorem Action.apply_answeredPrefix (qs : List Question) (s s' : AppState) (a : Action)
    (hinv : AnsweredPrefix qs s) (happ : a.apply qs s = some s') :
    AnsweredPrefix qs s' := by
  obtain ⟨hlt, hbelow, hcalc⟩ := hinv
  obtain ⟨cq, hq⟩ := getElem?_of_lt qs _ hlt
  cases a with
  | select answerText =>
    simp only [Action.apply] at happ
    rw [handleAnswerSelect_eq qs s cq answerText hq] at happ
    cases happ
    refine ⟨hlt, ?_, ?_⟩
    · intro i q hi hqi
      exact UserAnswers.set_isSome _ _ _ _ (hbelow i q hi hqi)
    · intro hst q hmem
      exact UserAnswers.set_isSome _ _ _ _ (hcalc hst q hmem)
  | goPrevious =>
    simp only [Action.apply] at happ
    by_cases h0 : s.currentQuestionIndex = 0
    · rw [handlePrevClick_zero qs s h0] at happ
      cases happ
      exact ⟨hlt, hbelow, hcalc⟩
    · have hpos : 0 < s.currentQuestionIndex := Nat.pos_of_ne_zero h0
      obtain ⟨pq, hp⟩ := getElem?_of_lt qs (s.currentQuestionIndex - 1) (by omega)
      rw [handlePrevClick_pos qs s pq hpos hp] at happ
      cases happ
      refine ⟨?_, ?_, hcalc⟩
      · show s.currentQuestionIndex - 1 < qs.length
        omega
      · intro i q hi hqi
        have hi' : i < s.currentQuestionIndex - 1 := hi
        exact hbelow i q (by omega) hqi
  | goNext =>
    simp only [Action.apply] at happ
    cases hans : s.userAnswers cq.id with
    | none =>
      rw [handleNextClick_unanswered qs s cq hq hans] at happ
      cases happ
      exact ⟨hlt, hbelow, hcalc⟩
    | some answer =>
      have hcur : ∀ (i : Nat) (q : Question), i < s.currentQuestionIndex + 1 →
          qs[i]? = some q → (s.userAnswers q.id).isSome = true := by
        intro i q hi hqi
        by_cases hlt' : i < s.currentQuestionIndex
        · exact hbelow i q hlt' hqi
        · have hieq : i = s.currentQuestionIndex := by omega
          rw [hieq, hq] at hqi
          cases hqi
          simp [hans]
      by_cases hnext : s.currentQuestionIndex + 1 < qs.length
      · obtain ⟨nq, hn⟩ := getElem?_of_lt qs _ hnext
        rw [handleNextClick_advance qs s cq nq answer hq hans hn] at happ
        cases happ
        exact ⟨hnext, hcur, hcalc⟩
      · rw [handleNextClick_last qs s cq answer hq hans hnext] at happ
        cases happ
        refine ⟨hlt, hbelow, ?_⟩
        intro _ q hmem
        obtain ⟨i, hi, hqi⟩ := List.getElem_of_mem hmem
        exact hcur i q (by omega) (by rw [List.getElem?_eq_getElem hi, hqi])
  | restart =>
    simp only [Action.apply] at happ
    cases happ
    refine ⟨?_, ?_, ?_⟩
    · show 0 < qs.length
      omega
    · intro i q hi
      exact absurd hi (Nat.not_lt_zero i)
    · intro hst
      cases hst

theorem runActions_answeredPrefix (qs : List Question) (actions : List Action)
    (s s' : AppState) (hinv : AnsweredPrefix qs s) (hrun : runActions qs s actions = some s') :
    AnsweredPrefix qs s' := by
  induction actions generalizing s with
  | nil =>
    simp only [runActions] at hrun
    cases hrun
    exact hinv
  | cons a rest ih =>
    simp only [runActions] at hrun
    split at hrun
    · cases hrun
    · rename_i s1 h1
      exact ih s1 (Action.apply_answeredPrefix qs s s1 a hinv h1) hrun

/-- C14: for a non-empty question list, every finite sequence of select,
goPrevious and goNext actions (and restart as well) applied from the initial
state runs to a state in which every question at an index strictly below the
position has a recorded answer; and whenever the status of that state is
`calculating`, every question of the list has a recorded answer, so that the
number of answered questions is the number of questions. -/
theorem answered_below_position (qs : List Question) (hne : qs ≠ [])
    (actions : List Action) :
    ∃ s, runActions qs initialState actions = some s ∧
      (∀ (i : Nat) (q : Question), i < s.currentQuestionIndex → qs[i]? = some q →
        s.userAnswers q.id ≠ none) ∧
      (s.quizState.status = Status.calculating →
        (∀ q ∈ qs, s.userAnswers q.id ≠ none) ∧
        (qs.filter (fun q => (s.userAnswers q.id).isSome)).length = qs.length) := by
  have hlen : 0 < qs.length := List.length_pos.2 hne
  obtain ⟨s, hrun, _⟩ := runActions_inRange qs actions initialState hlen
  have hinit : AnsweredPrefix qs initialState := by
    refine ⟨hlen, ?_, ?_⟩
    · intro i q hi
      exact absurd hi (Nat.not_lt_zero i)
    · intro hst
      cases hst
  obtain ⟨_, hbelow, hcalc⟩ := runActions_answeredPrefix qs actions initialState s hinit hrun
  refine ⟨s, hrun, ?_, ?_⟩
  · intro i q hi hqi
    exact Option.isSome_iff_ne_none.1 (hbelow i q hi hqi)
  · intro hst
    refine ⟨fun q hmem => Option.isSome_iff_ne_none.1 (hcalc hst q hmem), ?_⟩
    rw [List.filter_eq_self.2]
    intro q hmem
    exact hcalc hst q hmem

theorem revisitRun_reaches :
    runActions quizQuestions initialState revisitRun = some afterRevisitRun := by
  rfl

theorem answered_below_position_witness :
    quizQuestions ≠ [] ∧
    runActions quizQuestions initialState revisitRun = some afterRevisitRun ∧
    afterRevisitRun.quizState.status = Status.calculating ∧
    ∃ s, runActions quizQuestions initialState revisitRun = some s ∧
      (∀ (i : Nat) (q : Question), i < s.currentQuestionIndex → quizQuestions[i]? = some q →
        s.userAnswers q.id ≠ none) ∧
      (s.quizState.status = Status.calculating →
        (∀ q ∈ quizQuestions, s.userAnswers q.id ≠ none) ∧
        (quizQuestions.filter (fun q => (s.userAnswers q.id).isSome)).length
          = quizQuestions.length) :=
  ⟨by decide, revisitRun_reaches, rfl,
    answered_below_position quizQuestions (by decide) revisitRun⟩

/-! ### The displayed selection and the Next/Submit button -/

theorem orNull_of_nonempty (v : Option String) (h : ∀ x : String, v = some x → x ≠ "") :
    orNull v = v := by
  rw [orNull_eq]
  split
  · rename_i hv
    exact absurd rfl (h "" hv)
  · rfl

theorem isAnswerSelected_iff (currentQuestion : Question) (s : AppState)
    (hne : ∀ x : String, s.userAnswers currentQuestion.id = some x → x ≠ "")
    (hsel : s.selectedAnswer = s.userAnswers currentQuestion.id) :
    isAnswerSelected currentQuestion s = true ↔
      (s.userAnswers currentQuestion.id).isSome = true := by
  unfold isAnswerSelected activeAnswerForStyling
  rw [hsel]
  cases hv : s.userAnswers currentQuestion.id with
  | none => simp [orNull, jsOr]
  | some x =>
    have hx : x ≠ "" := hne x hv
    simp [orNull, jsOr, hx]

theorem Action.apply_selectionMatchesRecord (qs : List Question) (s s' : AppState)
    (a : Action) (hopt : ∀ o : String, a = Action.select o → o ≠ "")
    (hinv : SelectionMatchesRecord qs s) (happ : a.apply qs s = some s') :
    SelectionMatchesRecord qs s' := by
  obtain ⟨hvals, cq, hq, hsel⟩ := hinv
  have hlt := lt_length_of_getElem? qs _ _ hq
  cases a with
  | select answerText =>
    simp only [Action.apply] at happ
    rw [handleAnswerSelect_eq qs s cq answerText hq] at happ
    cases happ
    refine ⟨?_, cq, hq, ?_⟩
    · intro id v hv
      simp only [UserAnswers.set] at hv
      split at hv
      · cases hv
        exact hopt answerText rfl
      · exact hvals id v hv
    · simp [UserAnswers.set]
  | goPrevious =>
    simp only [Action.apply] at happ
    by_cases h0 : s.currentQuestionIndex = 0
    · rw [handlePrevClick_zero qs s h0] at happ
      cases happ
      exact ⟨hvals, cq, hq, hsel⟩
    · have hpos : 0 < s.currentQuestionIndex := Nat.pos_of_ne_zero h0
      obtain ⟨pq, hp⟩ := getElem?_of_lt qs (s.currentQuestionIndex - 1) (by omega)
      rw [handlePrevClick_pos qs s pq hpos hp] at happ
      cases happ
      exact ⟨hvals, pq, hp, orNull_of_nonempty _ (hvals pq.id)⟩
  | goNext =>
    simp only [Action.apply] at happ
    cases hans : s.userAnswers cq.id with
    | none =>
      rw [handleNextClick_unanswered qs s cq hq hans] at happ
      cases happ
      exact ⟨hvals, cq, hq, hsel⟩
    | some answer =>
      by_cases hnext : s.currentQuestionIndex + 1 < qs.length
      · obtain ⟨nq, hn⟩ := getElem?_of_lt qs _ hnext
        rw [handleNextClick_advance qs s cq nq answer hq hans hn] at happ
        cases happ
        exact ⟨hvals, nq, hn, orNull_of_nonempty _ (hvals nq.id)⟩
      · rw [handleNextClick_last qs s cq answer hq hans hnext] at happ
        cases happ
        exact ⟨hvals, cq, hq, hsel⟩
  | restart =>
    simp only [Action.apply] at happ
    cases happ
    obtain ⟨q0, h0⟩ := getElem?_of_lt qs 0 (by omega)
    refine ⟨?_, q0, h0, rfl⟩
    intro id v hv
    cases hv

theorem runActions_selectionMatchesRecord (qs : List Question) (actions : List Action)
    (hopt : ∀ o : String, Action.select o ∈ actions → o ≠ "")
    (s s' : AppState) (hinv : SelectionMatchesRecord qs s)
    (hrun : runActions qs s actions = some s') :
    SelectionMatchesRecord qs s' := by
  induction actions generalizing s with
  | nil =>
    simp only [runActions] at hrun
    cases hrun
    exact hinv
  | cons a rest ih =>
    simp only [runActions] at hrun
    split at hrun
    · cases hrun
    · rename_i s1 h1
      have ha : ∀ o : String, a = Action.select o → o ≠ "" := by
        intro o ho
        exact hopt o (ho ▸ List.mem_cons_self a rest)
      have hrest : ∀ o : String, Action.select o ∈ rest → o ≠ "" := by
        intro o ho
        exact hopt o (List.mem_cons_of_mem a ho)
      exact ih hrest s1 (Action.apply_selectionMatchesRecord qs s s1 a ha hinv h1) hrun

/-- C15: for a non-empty question list, after every finite sequence of select,
goPrevious, goNext and restart actions from the initial state in which every
selected option is a non-empty string, `selectedAnswer` equals the answer
recorded for the current question's id (none when there is no entry), and
`isAnswerSelected`, which enables the Next/Submit button, is true exactly when
the guard `userAnswers[currentQuestion.id] !== undefined` of `handleNextClick`
passes. -/
theorem selection_matches_record (qs : List Question) (hne : qs ≠ [])
    (actions : List Action)
    (hopt : ∀ o : String, Action.select o ∈ actions → o ≠ "") :
    ∃ s currentQuestion, runActions qs initialState actions = some s ∧
      qs[s.currentQuestionIndex]? = some currentQuestion ∧
      s.selectedAnswer = s.userAnswers currentQuestion.id ∧
      (isAnswerSelected currentQuestion s = true ↔
        s.userAnswers currentQuestion.id ≠ none) := by
  have hlen : 0 < qs.length := List.length_pos.2 hne
  obtain ⟨s, hrun, _⟩ := runActions_inRange qs actions initialState hlen
  obtain ⟨q0, h0⟩ := getElem?_of_lt qs 0 hlen
  have hinit : SelectionMatchesRecord qs initialState := by
    refine ⟨?_, q0, h0, rfl⟩
    intro id v hv
    cases hv
  obtain ⟨hvals, cq, hq, hsel⟩ :=
    runActions_selectionMatchesRecord qs actions hopt initialState s hinit hrun
  refine ⟨s, cq, hrun, hq, hsel, ?_⟩
  rw [isAnswerSelected_iff cq s (hvals cq.id) hsel]
  exact Option.isSome_iff_ne_none

theorem selection_matches_record_witness :
    quizQuestions ≠ [] ∧
    (∀ o : String, Action.select o ∈ revisitRun → o ≠ "") ∧
    ∃ s currentQuestion, runActions quizQuestions initialState revisitRun = some s ∧
      quizQuestions[s.currentQuestionIndex]? = some currentQuestion ∧
      s.selectedAnswer = s.userAnswers currentQuestion.id ∧
      (isAnswerSelected currentQuestion s = true ↔
        s.userAnswers currentQuestion.id ≠ none) :=
  ⟨by decide, by simp [revisitRun],
    selection_matches_record quizQuestions (by decide) revisitRun (by simp [revisitRun])⟩

/-! ### Restoring the recorded selection on navigation -/

theorem quizQuestions_no_blank_option : ∀ q ∈ quizQuestions, "" ∉ q.options := by
  decide

theorem handleAnswerSelect_userAnswers (qs : List Question) (s s' : AppState)
    (answerText : String) (h : handleAnswerSelect qs s answerText = some s') :
    ∃ currentQuestion, qs[s.currentQuestionIndex]? = some currentQuestion ∧
      s'.userAnswers = s.userAnswers.set currentQuestion.id answerText := by
  unfold handleAnswerSelect at h
  split at h
  · cases h
  · rename_i cq hq
    cases h
    exact ⟨cq, hq, rfl⟩

theorem handlePrevClick_userAnswers (qs : List Question) (s s' : AppState)
    (h : handlePrevClick qs s = some s') :
    s'.userAnswers = s.userAnswers := by
  unfold handlePrevClick at h
  split at h
  · simp only at h
    split at h
    · cases h
    · cases h
      rfl
  · cases h
    rfl

theorem handleNextClick_userAnswers (qs : List Question) (s s' : AppState)
    (h : handleNextClick qs s = some s') :
    s'.userAnswers = s.userAnswers := by
  unfold handleNextClick at h
  split at h
  · cases h
  · simp only at h
    split at h
    · cases h
      rfl
    · split at h
      · split at h
        · cases h
        · cases h
          rfl
      · cases h
        rfl

theorem Event.fire_noBlankAnswer (qs : List Question)
    (hopts : ∀ q ∈ qs, "" ∉ q.options) (s s' : AppState) (e : Event)
    (hinv : NoBlankAnswer s) (hfire : e.fire qs s = some s') :
    NoBlankAnswer s' := by
  unfold NoBlankAnswer at hinv ⊢
  cases e with
  | clickAnswer answerText =>
    simp only [Event.fire] at hfire
    split at hfire
    · cases hfire
    · rename_i cq hq
      split at hfire
      · rename_i hgate
        obtain ⟨cq', hq', hua⟩ := handleAnswerSelect_userAnswers qs s s' answerText hfire
        intro id v hv
        rw [hua] at hv
        simp only [UserAnswers.set] at hv
        split at hv
        · cases hv
          intro hblank
          rw [hblank] at hgate
          exact hopts cq (List.getElem?_mem hq) hgate.2
        · exact hinv id v hv
      · cases hfire
  | clickPrev =>
    simp only [Event.fire] at hfire
    split at hfire
    · cases hfire
    · split at hfire
      · rw [handlePrevClick_userAnswers qs s s' hfire]
        exact hinv
      · cases hfire
  | clickNext =>
    simp only [Event.fire] at hfire
    split at hfire
    · cases hfire
    · split at hfire
      · rw [handleNextClick_userAnswers qs s s' hfire]
        exact hinv
      · cases hfire
  | clickRestart =>
    simp only [Event.fire] at hfire
    split at hfire
    · cases hfire
      intro id v hv
      cases hv
    · cases hfire
  | timerFires =>
    simp only [Event.fire] at hfire
    split at hfire
    · cases hfire
    · cases hfire
      exact hinv

theorem runEvents_noBlankAnswer (qs : List Question)
    (hopts : ∀ q ∈ qs, "" ∉ q.options) (events : List Event) (s s' : AppState)
    (hinv : NoBlankAnswer s) (hrun : runEvents qs s events = some s') :
    NoBlankAnswer s' := by
  induction events generalizing s with
  | nil =>
    simp only [runEvents] at hrun
    cases hrun
    exact hinv
  | cons e rest ih =>
    simp only [runEvents] at hrun
    split at hrun
    · cases hrun
    · rename_i s1 h1
      exact ih s1 (Event.fire_noBlankAnswer qs hopts s s1 e hinv h1) hrun

theorem Event.fire_inRange (qs : List Question) (s s' : AppState) (e : Event)
    (h : s.currentQuestionIndex < qs.length) (hfire : e.fire qs s = some s') :
    s'.currentQuestionIndex < qs.length := by
  cases e with
  | clickAnswer answerText =>
    simp only [Event.fire] at hfire
    split at hfire
    · cases hfire
    · split at hfire
      · obtain ⟨s1, h1, hr, _⟩ := Action.apply_inRange qs s h (Action.select answerText)
        simp only [Action.apply] at h1
        rw [hfire] at h1
        cases h1
        exact hr
      · cases hfire
  | clickPrev =>
    simp only [Event.fire] at hfire
    split at hfire
    · cases hfire
    · split at hfire
      · obtain ⟨s1, h1, hr, _⟩ := Action.apply_inRange qs s h Action.goPrevious
        simp only [Action.apply] at h1
        rw [hfire] at h1
        cases h1
        exact hr
      · cases hfire
  | clickNext =>
    simp only [Event.fire] at hfire
    split at hfire
    · cases hfire
    · split at hfire
      · obtain ⟨s1, h1, hr, _⟩ := Action.apply_inRange qs s h Action.goNext
        simp only [Action.apply] at h1
        rw [hfire] at h1
        cases h1
        exact hr
      · cases hfire
  | clickRestart =>
    simp only [Event.fire] at hfire
    split at hfire
    · cases hfire
      show 0 < qs.length
      omega
    · cases hfire
  | timerFires =>
    simp only [Event.fire] at hfire
    split at hfire
    · cases hfire
    · cases hfire
      exact h

theorem runEvents_inRange (qs : List Question) (events : List Event) (s s' : AppState)
    (h : s.currentQuestionIndex < qs.length) (hrun : runEvents qs s events = some s') :
    s'.currentQuestionIndex < qs.length := by
  induction events generalizing s with
  | nil =>
    simp only [runEvents] at hrun
    cases hrun
    exact h
  | cons e rest ih =>
    simp only [runEvents] at hrun
    split at hrun
    · cases hrun
    · rename_i s1 h1
      exact ih s1 (Event.fire_inRange qs s s1 e h h1) hrun

theorem reachable_noBlankAnswer (events : List Event) (s : AppState)
    (hrun : runEvents quizQuestions initialState events = some s) :
    NoBlankAnswer s := by
  refine runEvents_noBlankAnswer quizQuestions quizQuestions_no_blank_option events
    initialState s ?_ hrun
  intro id v hv
  cases hv

theorem reachable_inRange (events : List Event) (s : AppState)
    (hrun : runEvents quizQuestions initialState events = some s) :
    s.currentQuestionIndex < quizQuestions.length :=
  runEvents_inRange quizQuestions events initialState s (by decide) hrun

theorem screen_of_status_quiz (s : AppState) (hst : s.quizState.status = Status.quiz) :
    screen s = Screen.quizUI := by
  simp [screen, hst]

theorem Event.fire_clickNext_eq (qs : List Question) (s : AppState)
    (currentQuestion : Question) (answer : String)
    (hq : qs[s.currentQuestionIndex]? = some currentQuestion)
    (ha : s.userAnswers currentQuestion.id = some answer) (hne : answer ≠ "")
    (hst : s.quizState.status = Status.quiz) :
    Event.fire qs s Event.clickNext = handleNextClick qs s := by
  have hsel : isAnswerSelected currentQuestion s = true := by
    unfold isAnswerSelected activeAnswerForStyling
    rw [ha]
    cases hs : s.selectedAnswer with
    | none => simp [orNull, jsOr, hne]
    | some x =>
      by_cases hx : x = ""
      · simp [orNull, jsOr, hx, hne]
      · simp [orNull, jsOr, hx]
  simp [Event.fire, hq, screen_of_status_quiz s hst, hsel]

theorem Event.fire_clickPrev_eq (qs : List Question) (s : AppState)
    (currentQuestion : Question)
    (hq : qs[s.currentQuestionIndex]? = some currentQuestion)
    (hpos : 0 < s.currentQuestionIndex)
    (hst : s.quizState.status = Status.quiz) :
    Event.fire qs s Event.clickPrev = handlePrevClick qs s := by
  have h0 : ¬ s.currentQuestionIndex = 0 := by omega
  simp [Event.fire, hq, screen_of_status_quiz s hst, h0]

/-- C7: in every state the running `App` reaches on the shipped question list in
which the current question has a recorded answer: if the position is not the
last index, goNext increments it by exactly 1, sets the displayed selection to
the answer recorded for the new position (none if unrecorded) and leaves the
Answer Map and the flow state unchanged, so a status `quiz` stays `quiz`; if the
position is the last index, goNext sets the status to `calculating` and leaves
the position, the displayed selection and the Answer Map unchanged. In status
`quiz` the Next/Submit button is enabled in such a state and its click is this
goNext. -/
theorem goNext_restores_recorded (events : List Event) (s : AppState)
    (hrun : runEvents quizQuestions initialState events = some s)
    (currentQuestion : Question) (answer : String)
    (hq : quizQuestions[s.currentQuestionIndex]? = some currentQuestion)
    (ha : s.userAnswers currentQuestion.id = some answer) :
    (s.currentQuestionIndex ≠ quizQuestions.length - 1 →
      ∃ nextQuestion, quizQuestions[s.currentQuestionIndex + 1]? = some nextQuestion ∧
        handleNextClick quizQuestions s
          = some { s with
              currentQuestionIndex := s.currentQuestionIndex + 1
              selectedAnswer := s.userAnswers nextQuestion.id }) ∧
    (s.currentQuestionIndex = quizQuestions.length - 1 →
      handleNextClick quizQuestions s
        = some { s with
            quizState :=
              { status := Status.calculating, finalScore := s.quizState.finalScore } }) ∧
    (s.quizState.status = Status.quiz →
      Event.fire quizQuestions s Event.clickNext = handleNextClick quizQuestions s) := by
  have hvals := reachable_noBlankAnswer events s hrun
  have hlt := lt_length_of_getElem? quizQuestions _ _ hq
  refine ⟨?_, ?_, ?_⟩
  · intro hnl
    obtain ⟨nq, hn⟩ := getElem?_of_lt quizQuestions (s.currentQuestionIndex + 1) (by omega)
    refine ⟨nq, hn, ?_⟩
    rw [handleNextClick_advance quizQuestions s currentQuestion nq answer hq ha hn,
      orNull_of_nonempty _ (hvals nq.id)]
  · intro hl
    exact handleNextClick_last quizQuestions s currentQuestion answer hq ha (by omega)
  · intro hst
    exact Event.fire_clickNext_eq quizQuestions s currentQuestion answer hq ha
      (hvals currentQuestion.id answer ha) hst

theorem goNext_restores_recorded_witness :
    (runEvents quizQuestions initialState clicksToBackOnFirst = some backOnFirst ∧
      backOnFirst.userAnswers 1 = some "Meow-Meow" ∧
      backOnFirst.userAnswers 2 = some "Shoes" ∧
      backOnFirst.currentQuestionIndex ≠ quizQuestions.length - 1 ∧
      ∃ nextQuestion, quizQuestions[backOnFirst.currentQuestionIndex + 1]? = some nextQuestion ∧
        handleNextClick quizQuestions backOnFirst
          = some { backOnFirst with
              currentQuestionIndex := backOnFirst.currentQuestionIndex + 1
              selectedAnswer := backOnFirst.userAnswers nextQuestion.id }) ∧
    (runEvents quizQuestions initialState clicksToAnsweredLast = some answeredLast ∧
      answeredLast.userAnswers 4 = some "Two" ∧
      answeredLast.currentQuestionIndex = quizQuestions.length - 1 ∧
      handleNextClick quizQuestions answeredLast
        = some { answeredLast with
            quizState :=
              { status := Status.calculating
                finalScore := answeredLast.quizState.finalScore } }) :=
  ⟨⟨rfl, rfl, rfl, by decide,
      (goNext_restores_recorded clicksToBackOnFirst backOnFirst rfl
        { id := 1
          text := "1. What sound does a cat make?"
          options := ["Bhau-Bhau", "Meow-Meow", "Oink-Oink"]
          correctAnswer := "Meow-Meow" } "Meow-Meow" rfl rfl).1 (by decide)⟩,
   ⟨rfl, rfl, by decide,
      (goNext_restores_recorded clicksToAnsweredLast answeredLast rfl
        { id := 4
          text := "4. How many stars are in the sky?"
          options := ["Two", "One Hundred", "Infinite"]
          correctAnswer := "Infinite" } "Two" rfl rfl).2.1 (by decide)⟩⟩

/-- C8: in every state the running `App` reaches on the shipped question list:
if the position is 0, goPrevious leaves the entire state unchanged; if the
position is above 0, goPrevious decrements it by exactly 1 and sets the
displayed selection to the answer recorded for the new position (none if
unrecorded), leaving the Answer Map and the flow state unchanged. In status
`quiz` at a position above 0 the Previous button is enabled and its click is
this goPrevious. -/
theorem goPrevious_restores_recorded (events : List Event) (s : AppState)
    (hrun : runEvents quizQuestions initialState events = some s) :
    (s.currentQuestionIndex = 0 → handlePrevClick quizQuestions s = some s) ∧
    (0 < s.currentQuestionIndex →
      ∃ prevQuestion, quizQuestions[s.currentQuestionIndex - 1]? = some prevQuestion ∧
        handlePrevClick quizQuestions s
          = some { s with
              currentQuestionIndex := s.currentQuestionIndex - 1
              selectedAnswer := s.userAnswers prevQuestion.id }) ∧
    (s.quizState.status = Status.quiz → 0 < s.currentQuestionIndex →
      Event.fire quizQuestions s Event.clickPrev = handlePrevClick quizQuestions s) := by
  have hvals := reachable_noBlankAnswer events s hrun
  have hlt := reachable_inRange events s hrun
  refine ⟨?_, ?_, ?_⟩
  · intro h0
    exact handlePrevClick_zero quizQuestions s h0
  · intro hpos
    obtain ⟨pq, hp⟩ := getElem?_of_lt quizQuestions (s.currentQuestionIndex - 1) (by omega)
    refine ⟨pq, hp, ?_⟩
    rw [handlePrevClick_pos quizQuestions s pq hpos hp, orNull_of_nonempty _ (hvals pq.id)]
  · intro hst hpos
    obtain ⟨cq, hq⟩ := getElem?_of_lt quizQuestions s.currentQuestionIndex hlt
    exact Event.fire_clickPrev_eq quizQuestions s cq hq hpos hst

theorem goPrevious_restores_recorded_witness :
    (runEvents quizQuestions initialState clicksToAnsweredFirst = some answeredFirst ∧
      answeredFirst.currentQuestionIndex = 0 ∧
      handlePrevClick quizQuestions answeredFirst = some answeredFirst) ∧
    (runEvents quizQuestions initialState clicksToAnsweredSecond = some answeredSecond ∧
      0 < answeredSecond.currentQuestionIndex ∧
      answeredSecond.userAnswers 1 = some "Meow-Meow" ∧
      ∃ prevQuestion,
        quizQuestions[answeredSecond.currentQuestionIndex - 1]? = some prevQuestion ∧
        handlePrevClick quizQuestions answeredSecond
          = some { answeredSecond with
              currentQuestionIndex := answeredSecond.currentQuestionIndex - 1
              selectedAnswer := answeredSecond.userAnswers prevQuestion.id }) :=
  ⟨⟨rfl, rfl,
      (goPrevious_restores_recorded clicksToAnsweredFirst answeredFirst rfl).1 rfl⟩,
   ⟨rfl, by decide, rfl,
      (goPrevious_restores_recorded clicksToAnsweredSecond answeredSecond rfl).2.1
        (by decide)⟩⟩

/-- C9: for every option string o and every state the running `App` reaches on
the shipped question list at a position that is not the last index whose
current question has recorded answer o, goNext followed by goPrevious returns to
the same position with the displayed selection (both `selectedAnswer` and
`activeAnswerForStyling`) equal to o and the Answer Map and the flow state
unchanged. In status `quiz` the two buttons are enabled along the way and the
clicks Next, Previous give the same result. -/
theorem goNext_goPrevious_roundtrip (events : List Event) (s : AppState)
    (hrun : runEvents quizQuestions initialState events = some s)
    (currentQuestion : Question) (o : String)
    (hq : quizQuestions[s.currentQuestionIndex]? = some currentQuestion)
    (hnl : s.currentQuestionIndex ≠ quizQuestions.length - 1)
    (ha : s.userAnswers currentQuestion.id = some o) :
    (handleNextClick quizQuestions s).bind (handlePrevClick quizQuestions)
      = some { s with selectedAnswer := some o } ∧
    activeAnswerForStyling currentQuestion { s with selectedAnswer := some o } = some o ∧
    (s.quizState.status = Status.quiz →
      runEvents quizQuestions s [Event.clickNext, Event.clickPrev]
        = some { s with selectedAnswer := some o }) := by
  have hvals := reachable_noBlankAnswer events s hrun
  have ho : o ≠ "" := hvals currentQuestion.id o ha
  have hlt := lt_length_of_getElem? quizQuestions _ _ hq
  obtain ⟨nq, hn⟩ := getElem?_of_lt quizQuestions (s.currentQuestionIndex + 1) (by omega)
  have hnext := handleNextClick_advance quizQuestions s currentQuestion nq o hq ha hn
  have hprev := handlePrevClick_pos quizQuestions
    { s with
      currentQuestionIndex := s.currentQuestionIndex + 1
      selectedAnswer := orNull (s.userAnswers nq.id) }
    currentQuestion (Nat.succ_pos _) (by simpa using hq)
  have hback :
      handlePrevClick quizQuestions
        { s with
          currentQuestionIndex := s.currentQuestionIndex + 1
          selectedAnswer := orNull (s.userAnswers nq.id) }
        = some { s with selectedAnswer := some o } := by
    rw [hprev]
    simp [ha, orNull_eq, ho]
  refine ⟨?_, ?_, ?_⟩
  · rw [hnext, Option.some_bind, hback]
  · simp [activeAnswerForStyling, orNull, jsOr, ho]
  · intro hst
    have hfn := Event.fire_clickNext_eq quizQuestions s currentQuestion o hq ha ho hst
    have hfp := Event.fire_clickPrev_eq quizQuestions
      { s with
        currentQuestionIndex := s.currentQuestionIndex + 1
        selectedAnswer := orNull (s.userAnswers nq.id) }
      nq hn (Nat.succ_pos _) hst
    simp only [runEvents, hfn, hnext, hfp, hback]

theorem goNext_goPrevious_roundtrip_witness :
    runEvents quizQuestions initialState clicksToAnsweredSecond = some answeredSecond ∧
    answeredSecond.currentQuestionIndex ≠ quizQuestions.length - 1 ∧
    answeredSecond.userAnswers 2 = some "Shoes" ∧
    (handleNextClick quizQuestions answeredSecond).bind (handlePrevClick quizQuestions)
      = some { answeredSecond with selectedAnswer := some "Shoes" } ∧
    activeAnswerForStyling
        { id := 2
          text := "2. What would you probably find in your fridge?"
          options := ["Shoes", "Books", "Ice-Cream"]
          correctAnswer := "Ice-Cream" }
        { answeredSecond with selectedAnswer := some "Shoes" } = some "Shoes" ∧
    answeredSecond.quizState.status = Status.quiz ∧
    runEvents quizQuestions answeredSecond [Event.clickNext, Event.clickPrev]
      = some { answeredSecond with selectedAnswer := some "Shoes" } :=
  have h := goNext_goPrevious_roundtrip clicksToAnsweredSecond answeredSecond rfl
    { id := 2
      text := "2. What would you probably find in your fridge?"
      options := ["Shoes", "Books", "Ice-Cream"]
      correctAnswer := "Ice-Cream" } "Shoes" rfl (by decide) rfl
  ⟨rfl, by decide, rfl, h.1, h.2.1, rfl, h.2.2 rfl⟩

end QuizApp
